import Mathlib

/-!
Shallow embedding of `src/verify-boc.ts`, a standalone TON BOC transaction
verifier built on the TEP-467 normalized message hash.

The script itself contains the normalization/hash function
(`getNormalizedExtMessageHash`), the argument parser (`parseArgs`), the
endpoint table (`ENDPOINTS`) and the orchestrating verifier (`verifyBoc`).
The cell/message primitives it calls (`Cell`, `loadMessage`, `storeMessage`,
`Cell.hash` from the external `@ton/core` library) are not part of the
repository; they are modelled here from the specification's description of
the cell container codec, the message model and the bottom-up content hash
(spec sections 3, 4.1, 4.2 and 4.3).  Addresses, coin amounts and digests
are modelled as `Nat`/`Int`; the digest is reduced modulo `2 ^ 256` to match
its 32-byte width.
-/

namespace VerifyBoc

/-- Modelled from the spec: a cell is an ordered sequence of bits plus an
ordered sequence of references to child cells (spec section 3, "Cell"). -/
inductive Cell where
  | mk : List Bool → List Cell → Cell

def Cell.bits : Cell → List Bool
  | .mk b _ => b

def Cell.refs : Cell → List Cell
  | .mk _ r => r

/-- Modelled from the spec: the `info` header variant of a message, one of
internal / external-in / external-out, each with its own field set
(spec section 3, "Message"; `CommonMessageInfo` in `@ton/core`). -/
inductive CommonMessageInfo where
  | internal (src : Nat) (dest : Nat) (value : Int) (bounce : Bool)
      (createdLt : Nat) (createdAt : Nat)
  | externalIn (src : Option Nat) (dest : Nat) (importFee : Int)
  | externalOut (src : Nat) (dest : Option Nat) (createdLt : Nat) (createdAt : Nat)

/-- The discriminant string exposed as `info.type` in `@ton/core`. -/
def CommonMessageInfo.type : CommonMessageInfo → String
  | .internal .. => "internal"
  | .externalIn .. => "external-in"
  | .externalOut .. => "external-out"

/-- Modelled from the spec: optional (code, data) initialization pair
(spec section 3, "Message", field `init`). -/
structure StateInit where
  code : Option Cell
  data : Option Cell

/-- Modelled from the spec: a message is a tagged header, an optional init
pair and an opaque body cell (spec section 3, "Message"). -/
structure Message where
  info : CommonMessageInfo
  init : Option StateInit
  body : Cell

/-- Bit-level payload mixing for the content hash; any deterministic,
executable combiner serves the embedding. -/
def bitsToNat : List Bool → Nat
  | [] => 1
  | b :: rest => (if b then 2 else 3) + 4 * bitsToNat rest

/-- One mixing step of the bottom-up digest, reduced to 256 bits. -/
def hashMix (a b : Nat) : Nat := (a * 1099511628211 + b + 7) % 2 ^ 256

mutual

/-- Modelled from the spec: the cell content hash is computed bottom-up,
each cell's hash depending on its own bits and the hashes of its children
in reference order (spec section 4.3, step 4; `Cell.hash` in `@ton/core`). -/
def cellHash : Cell → Nat
  | Cell.mk bits refs => hashMix (bitsToNat bits) (cellHashList refs)

/-- Folds the child hashes in reference order. -/
def cellHashList : List Cell → Nat
  | [] => 5
  | c :: cs => hashMix (cellHash c) (cellHashList cs)

end

/-- Fuel-bounded binary digits of a natural number. -/
def natBitsAux : Nat → Nat → List Bool
  | 0, _ => []
  | fuel + 1, n => if n = 0 then [] else decide (n % 2 = 1) :: natBitsAux fuel (n / 2)

/-- Binary encoding of a natural number used by the serializer model. -/
def natBits (n : Nat) : List Bool := natBitsAux n n

/-- Sign-and-magnitude encoding of an integer. -/
def intBits (i : Int) : List Bool := decide (i < 0) :: natBits i.natAbs

/-- Presence-bit encoding of an optional address. -/
def optNatBits : Option Nat → List Bool
  | none => [false]
  | some s => true :: natBits s

/-- Modelled from the spec: the wire layout of each `info` variant, a
discriminant tag followed by that variant's fixed field layout
(spec section 4.2, `StoreMessage`).  Tags: internal `0`, external-in `10`,
external-out `11`. -/
def storeInfoBits : CommonMessageInfo → List Bool
  | .internal src dest value bounce createdLt createdAt =>
      false :: (natBits src ++ natBits dest ++ intBits value ++ [bounce]
        ++ natBits createdLt ++ natBits createdAt)
  | .externalIn src dest importFee =>
      true :: false :: (optNatBits src ++ natBits dest ++ intBits importFee)
  | .externalOut src dest createdLt createdAt =>
      true :: true :: (natBits src ++ optNatBits dest
        ++ natBits createdLt ++ natBits createdAt)

/-- Modelled from the spec: the (code, data) init pair packed into one cell,
with two presence bits and the present parts as references. -/
def stateInitCell (si : StateInit) : Cell :=
  Cell.mk [si.code.isSome, si.data.isSome] (si.code.toList ++ si.data.toList)

/-- Modelled from the spec: `StoreMessage(message, forceRef)` serializes the
header, then the init presence bits, then the body; `forceRef = true` forces
the body to be stored as a reference cell, never inlined, while
`forceRef = false` inlines a small reference-free body
(spec section 4.2, `StoreMessage`; `storeMessage` in `@ton/core`). -/
def storeMessage (m : Message) (forceRef : Bool) : Cell :=
  let infoBits := storeInfoBits m.info
  let initPart : List Bool × List Cell :=
    match m.init with
    | none => ([false], [])
    | some si => ([true, true], [stateInitCell si])
  let bodyPart : List Bool × List Cell :=
    if forceRef then
      ([true], [m.body])
    else if m.body.bits.length ≤ 8 ∧ m.body.refs.isEmpty then
      (false :: m.body.bits, [])
    else
      ([true], [m.body])
  Cell.mk (infoBits ++ initPart.1 ++ bodyPart.1) (initPart.2 ++ bodyPart.2)

/-- The object spread `{ ...message.info, src: undefined, importFee: BigInt(0) }`
from `getNormalizedExtMessageHash` (src/verify-boc.ts lines 39-43); under the
guard the info is always the external-in variant. -/
def clearSrcAndImportFee : CommonMessageInfo → CommonMessageInfo
  | .externalIn _ dest _ => .externalIn none dest 0
  | info => info

/-- Embedding of `getNormalizedExtMessageHash` (src/verify-boc.ts lines 34-55):
require the external-in variant, clear `src`, zero `importFee`, drop `init`,
keep `body`, serialize with `forceRef = true` and hash the resulting cell.
A thrown `Error` is modelled as `Except.error` carrying the message text. -/
def getNormalizedExtMessageHash (message : Message) : Except String Nat :=
  if message.info.type ≠ "external-in" then
    Except.error ("Message must be \"external-in\", got " ++ message.info.type)
  else
    let info := clearSrcAndImportFee message.info
    let normalizedMessage : Message := { message with init := none, info := info }
    Except.ok (cellHash (storeMessage normalizedMessage true))

/-- The normalization step as an explicit pure transformation producing a new
message value (spec section 9: "an explicit pure transformation producing a
new immutable value"). -/
def normalizedExtMessage (m : Message) : Message :=
  { info := clearSrcAndImportFee m.info, init := none, body := m.body }

/-- Modelled from the spec: an externally fetched transaction record carrying
a logical time, a wall-clock timestamp, an optional inbound message, outbound
messages and its own content hash (spec section 3, "Transaction record";
`tx.lt`, `tx.now`, `tx.inMessage`, `tx.outMessages`, `tx.hash()` in the
script). -/
structure Transaction where
  lt : Nat
  now : Nat
  inMessage : Option Message
  outMessages : List Message
  hash : Nat

/-- The destination address read off a message header, as `info.dest` is
accessed on the found transaction's external-in inbound message. -/
def msgDest (m : Message) : Nat :=
  match m.info with
  | .internal _ dest _ _ _ _ => dest
  | .externalIn _ dest _ => dest
  | .externalOut _ dest _ _ => dest.getD 0

/-- Terminal state of the search loop: the first matching position (1-based)
together with the details the script reports, or no match. -/
inductive SearchResult where
  | found (position : Nat) (lt : Nat) (txHash : Nat) (timestamp : Nat)
      (dest : Nat) (outCount : Nat)
  | notFound
deriving DecidableEq

/-- Embedding of the search loop of `verifyBoc` (src/verify-boc.ts lines
169-205).  `i` is the current 0-based index.  A transaction whose inbound
message is absent or not external-in is skipped (`continue`); otherwise its
normalized hash is computed and compared to `target`, and the first equal
hash wins with position `i + 1`.  Besides the result the loop returns how
many candidates it examined and how many inbound hashes it computed, counted
over the suffix it was given. -/
def searchLoop (target : Nat) (i : Nat) :
    List Transaction → Except String (SearchResult × Nat × Nat)
  | [] => Except.ok (SearchResult.notFound, 0, 0)
  | tx :: rest =>
    match tx.inMessage with
    | some msg =>
      if msg.info.type = "external-in" then
        match getNormalizedExtMessageHash msg with
        | Except.error e => Except.error e
        | Except.ok txHash =>
          if txHash = target then
            Except.ok (SearchResult.found (i + 1) tx.lt tx.hash tx.now
              (msgDest msg) tx.outMessages.length, 1, 1)
          else
            match searchLoop target (i + 1) rest with
            | Except.error e => Except.error e
            | Except.ok (r, ex, hc) => Except.ok (r, ex + 1, hc + 1)
      else
        match searchLoop target (i + 1) rest with
        | Except.error e => Except.error e
        | Except.ok (r, ex, hc) => Except.ok (r, ex + 1, hc)
    | none =>
      match searchLoop target (i + 1) rest with
      | Except.error e => Except.error e
      | Except.ok (r, ex, hc) => Except.ok (r, ex + 1, hc)

/-- The distinct terminal paths of `verifyBoc`: the found report, the
no-match report, or a caught error (src/verify-boc.ts lines 184-221). -/
inductive Outcome where
  | found (position : Nat) (lt : Nat) (txHash : Nat) (timestamp : Nat)
      (dest : Nat) (outCount : Nat)
  | notFound
  | error (msg : String)
deriving DecidableEq

/-- `true` exactly on the found alternative. -/
def Outcome.isFound : Outcome → Bool
  | .found .. => true
  | _ => false

/-- Embedding of `verifyBoc` (src/verify-boc.ts lines 116-222), with the two
external collaborators supplied as inputs: `decoded` is the result of
`Cell.fromBase64` + `loadMessage` on the input BOC, and `fetched` is the
result of the `client.getTransactions` network call.  The first component
classifies which terminal path the run took; the second counts how many
times the fetch collaborator was invoked.  Thrown errors are modelled as
`Except.error` and land in the `Outcome.error` path of the enclosing
`try`/`catch`. -/
def verifyBocOutcome (decoded : Except String Message)
    (fetched : Except String (List Transaction)) : Outcome × Nat :=
  match decoded with
  | Except.error e => (Outcome.error e, 0)
  | Except.ok message =>
    if message.info.type ≠ "external-in" then
      (Outcome.error ("Expected external-in message, got " ++ message.info.type), 0)
    else
      match getNormalizedExtMessageHash message with
      | Except.error e => (Outcome.error e, 0)
      | Except.ok normalizedHash =>
        match fetched with
        | Except.error e => (Outcome.error e, 1)
        | Except.ok transactions =>
          if transactions.length = 0 then
            (Outcome.notFound, 1)
          else
            match searchLoop normalizedHash 0 transactions with
            | Except.error e => (Outcome.error e, 1)
            | Except.ok (SearchResult.found p lt h now d oc, _, _) =>
                (Outcome.found p lt h now d oc, 1)
            | Except.ok (SearchResult.notFound, _, _) => (Outcome.notFound, 1)

/-- The value `verifyBoc` actually returns to `main`, translated return
point by return point: `true` at the found `return true` (line 201), `false`
at the empty-fetch `return false` (line 164), the exhausted-scan
`return false` (line 213) and the `catch` block's `return false` (line 220)
that also absorbs every thrown error. -/
def verifyBoc (decoded : Except String Message)
    (fetched : Except String (List Transaction)) : Bool :=
  match decoded with
  | Except.error _ => false
  | Except.ok message =>
    if message.info.type ≠ "external-in" then false
    else
      match getNormalizedExtMessageHash message with
      | Except.error _ => false
      | Except.ok normalizedHash =>
        match fetched with
        | Except.error _ => false
        | Except.ok transactions =>
          if transactions.length = 0 then false
          else
            match searchLoop normalizedHash 0 transactions with
            | Except.error _ => false
            | Except.ok (SearchResult.found _ _ _ _ _ _, _, _) => true
            | Except.ok (SearchResult.notFound, _, _) => false

/-- Embedding of the `Config` record (src/verify-boc.ts lines 19-25).
`network` is declared `'mainnet' | 'testnet'` in TypeScript but the parser
assigns it with an unchecked cast, so at runtime it can hold any string, or
`undefined` when `--network` is the last argument; it is therefore modelled
as `Option String`.  `limit` is `Option Int` because `parseInt` can yield
`NaN`. -/
structure Config where
  boc : String
  network : Option String
  apiKey : Option String
  limit : Option Int
  verbose : Bool
deriving DecidableEq

/-- Model of JavaScript `parseInt(s, 10)`: `none` for `NaN`. -/
def parseInt10 (s : String) : Option Int := s.toInt?

/-- The option-scanning loop of `parseArgs` (src/verify-boc.ts lines 94-109):
each recognized flag consumes the following argument (`args[++i]`, which is
`undefined` past the end), unknown arguments are ignored. -/
def parseArgsLoop : List String → Config → Config
  | [], config => config
  | a :: rest, config =>
    if a = "--network" then
      match rest with
      | v :: rest2 => parseArgsLoop rest2 { config with network := some v }
      | [] => { config with network := none }
    else if a = "--api-key" then
      match rest with
      | v :: rest2 => parseArgsLoop rest2 { config with apiKey := some v }
      | [] => { config with apiKey := none }
    else if a = "--limit" then
      match rest with
      | v :: rest2 => parseArgsLoop rest2 { config with limit := parseInt10 v }
      | [] => { config with limit := none }
    else if a = "--verbose" then
      parseArgsLoop rest { config with verbose := true }
    else
      parseArgsLoop rest config

/-- Embedding of `parseArgs` (src/verify-boc.ts lines 59-112).  `none` models
the help path that calls `process.exit(0)`; otherwise the first argument is
the BOC and the remaining arguments are scanned for options over the
defaults `network = mainnet`, `limit = 10`, `verbose = false`. -/
def parseArgs : List String → Option Config
  | [] => none
  | a0 :: rest =>
    if a0 = "--help" ∨ a0 = "-h" then none
    else some (parseArgsLoop rest
      { boc := a0, network := some "mainnet", apiKey := none,
        limit := some 10, verbose := false })

/-- Embedding of the `ENDPOINTS` record (src/verify-boc.ts lines 27-30):
indexing it with any key other than its two declared ones yields
`undefined`, modelled as `none`. -/
def ENDPOINTS (network : String) : Option String :=
  if network = "mainnet" then some "https://toncenter.com/api/v2/jsonRPC"
  else if network = "testnet" then some "https://testnet.toncenter.com/api/v2/jsonRPC"
  else none

/-- The lookup `ENDPOINTS[config.network]` performed by `verifyBoc`
(src/verify-boc.ts line 140); indexing with `undefined` also yields
`undefined`. -/
def endpointFor : Option String → Option String
  | some n => ENDPOINTS n
  | none => none

/-- The argument object of `new TonClient({ endpoint, apiKey })`
(src/verify-boc.ts lines 141-144). -/
structure TonClientInit where
  endpoint : Option String
  apiKey : Option String
deriving DecidableEq

/-- The client construction step of `verifyBoc` (src/verify-boc.ts lines
140-144), as a function of the parsed configuration. -/
def clientInit (config : Config) : TonClientInit :=
  { endpoint := endpointFor config.network, apiKey := config.apiKey }

/-- Whether a transaction's inbound message exists and is external-in, the
condition under which the search loop computes a hash. -/
def isExtInTx (tx : Transaction) : Bool :=
  match tx.inMessage with
  | some msg => msg.info.type == "external-in"
  | none => false

/-- Whether a transaction is the one the search loop stops at: inbound
message present, external-in, and normalized hash equal to the target. -/
def matchesTarget (target : Nat) (tx : Transaction) : Bool :=
  match tx.inMessage with
  | some msg =>
      msg.info.type == "external-in" &&
      (match getNormalizedExtMessageHash msg with
       | Except.ok h => h == target
       | Except.error _ => false)
  | none => false

/-- A small concrete body cell for concrete evaluations. -/
def bodyW : Cell := Cell.mk [true] []

/-- A concrete external-in message with a source and a nonzero import fee. -/
def mW : Message := ⟨.externalIn (some 2) 5 3, none, bodyW⟩

/-- A concrete external-in message that additionally carries an init pair. -/
def mInitW : Message := ⟨.externalIn (some 2) 5 3, some ⟨some (Cell.mk [] []), none⟩, bodyW⟩

/-- A concrete internal message, outside the supported variant. -/
def mInternalW : Message := ⟨.internal 1 5 9 true 0 0, none, bodyW⟩

/-- The normalized hash of `mW`, used as a concrete search target. -/
def targetW : Nat := cellHash (storeMessage (normalizedExtMessage mW) true)

/-- A concrete transaction with no inbound message. -/
def txSkipW : Transaction := ⟨10, 100, none, [], 77⟩

/-- A concrete transaction whose inbound message is `mW`. -/
def txMatchW : Transaction := ⟨11, 101, some mW, [], 78⟩

theorem getNormalizedExtMessageHash_externalIn (src : Option Nat) (dest : Nat)
    (fee : Int) (init : Option StateInit) (body : Cell) :
    getNormalizedExtMessageHash ⟨.externalIn src dest fee, init, body⟩ =
      Except.ok (cellHash (storeMessage
        ⟨.externalIn none dest 0, none, body⟩ true)) := rfl

theorem getNormalizedExtMessageHash_ok_of_extIn (m : Message)
    (h : m.info.type = "external-in") :
    ∃ d, getNormalizedExtMessageHash m = Except.ok d := by
  obtain ⟨info, init, body⟩ := m
  cases info with
  | internal src dest value bounce createdLt createdAt =>
      simp [CommonMessageInfo.type] at h
  | externalIn src dest fee =>
      exact ⟨_, getNormalizedExtMessageHash_externalIn src dest fee init body⟩
  | externalOut src dest createdLt createdAt =>
      simp [CommonMessageInfo.type] at h

theorem getNormalizedExtMessageHash_error_of_not_extIn (m : Message)
    (h : m.info.type ≠ "external-in") :
    getNormalizedExtMessageHash m =
      Except.error ("Message must be \"external-in\", got " ++ m.info.type) := by
  simp [getNormalizedExtMessageHash, h]

theorem searchLoop_ok_counts (target : Nat) :
    ∀ (txs : List Transaction) (i : Nat),
      ∃ r ex hc, searchLoop target i txs = Except.ok (r, ex, hc) ∧
        hc = ((txs.take ex).filter isExtInTx).length ∧ ex ≤ txs.length := by
  intro txs
  induction txs with
  | nil => exact fun i => ⟨.notFound, 0, 0, rfl, rfl, Nat.le_refl 0⟩
  | cons tx rest ih =>
    intro i
    obtain ⟨r, ex, hc, heq, hhc, hex⟩ := ih (i + 1)
    cases htx : tx.inMessage with
    | none =>
      refine ⟨r, ex + 1, hc, ?_, ?_, by simp only [List.length_cons]; omega⟩
      · simp [searchLoop, htx, heq]
      · simp [isExtInTx, htx, hhc]
    | some msg =>
      by_cases htype : msg.info.type = "external-in"
      · obtain ⟨d, hd⟩ := getNormalizedExtMessageHash_ok_of_extIn msg htype
        by_cases hdt : d = target
        · refine ⟨SearchResult.found (i + 1) tx.lt tx.hash tx.now (msgDest msg)
            tx.outMessages.length, 1, 1, ?_, ?_, by simp only [List.length_cons]; omega⟩
          · simp [searchLoop, htx, htype, hd, hdt]
          · simp [isExtInTx, htx, htype]
        · refine ⟨r, ex + 1, hc + 1, ?_, ?_, by simp only [List.length_cons]; omega⟩
          · simp [searchLoop, htx, htype, hd, hdt, heq]
          · simp [isExtInTx, htx, htype, hhc]
      · refine ⟨r, ex + 1, hc, ?_, ?_, by simp only [List.length_cons]; omega⟩
        · simp [searchLoop, htx, htype, heq]
        · simp [isExtInTx, htx, htype, hhc]

theorem searchLoop_first_match (target : Nat) :
    ∀ (txs : List Transaction) (k : Nat) (txk : Transaction) (i : Nat),
      (∀ j txj, j < k → txs[j]? = some txj → matchesTarget target txj = false) →
      txs[k]? = some txk →
      matchesTarget target txk = true →
      ∃ msg hc, txk.inMessage = some msg ∧
        searchLoop target i txs = Except.ok
          (SearchResult.found (i + k + 1) txk.lt txk.hash txk.now (msgDest msg)
            txk.outMessages.length, k + 1, hc) := by
  intro txs
  induction txs with
  | nil => intro k txk i _ hk _; simp at hk
  | cons tx rest ih =>
    intro k txk i hbefore hk hmatch
    cases k with
    | zero =>
      simp at hk
      subst hk
      cases htx : tx.inMessage with
      | none => simp [matchesTarget, htx] at hmatch
      | some msg =>
        simp [matchesTarget, htx] at hmatch
        obtain ⟨htype, hrest⟩ := hmatch
        obtain ⟨d, hd⟩ := getNormalizedExtMessageHash_ok_of_extIn msg htype
        rw [hd] at hrest
        have hdt : d = target := by simpa using hrest
        refine ⟨msg, 1, rfl, ?_⟩
        simp [searchLoop, htx, htype, hd, hdt]
    | succ j =>
      have hb0 : matchesTarget target tx = false :=
        hbefore 0 tx (Nat.succ_pos j) (by simp)
      have hk' : rest[j]? = some txk := by simpa using hk
      have hbefore' : ∀ l txl, l < j → rest[l]? = some txl →
          matchesTarget target txl = false := by
        intro l txl hl hget
        exact hbefore (l + 1) txl (by omega) (by simpa using hget)
      obtain ⟨msg, hc, hmsg, heq⟩ := ih j txk (i + 1) hbefore' hk' hmatch
      have hpos : i + 1 + j + 1 = i + (j + 1) + 1 := by omega
      rw [hpos] at heq
      cases htx : tx.inMessage with
      | none =>
        exact ⟨msg, hc, hmsg, by simp [searchLoop, htx, heq]⟩
      | some msg0 =>
        by_cases htype : msg0.info.type = "external-in"
        · obtain ⟨d, hd⟩ := getNormalizedExtMessageHash_ok_of_extIn msg0 htype
          have hdt : d ≠ target := by
            intro hdt
            simp [matchesTarget, htx, hd, htype, hdt] at hb0
          exact ⟨msg, hc + 1, hmsg, by simp [searchLoop, htx, htype, hd, hdt, heq]⟩
        · exact ⟨msg, hc, hmsg, by simp [searchLoop, htx, htype, heq]⟩

/-- C1: for every message whose info variant is external-in,
`getNormalizedExtMessageHash` hashes a normalized copy in which `info.src`
is cleared, `info.importFee` is set to zero, `init` is set to empty and
`body` is kept unchanged, serialized with the `forceRef = true` packing
flag before the content hash is taken. -/
theorem normalized_hash_externalIn_spec (m : Message) (src : Option Nat)
    (dest : Nat) (fee : Int)
    (h : m.info = CommonMessageInfo.externalIn src dest fee) :
    getNormalizedExtMessageHash m =
      Except.ok (cellHash (storeMessage
        { info := CommonMessageInfo.externalIn none dest 0, init := none,
          body := m.body } true)) := by
  obtain ⟨info, init, body⟩ := m
  cases h
  rfl

/-- Witness for C1 at a concrete external-in message with source 2,
destination 5 and import fee 3. -/
theorem normalized_hash_externalIn_spec_witness :
    getNormalizedExtMessageHash mW =
      Except.ok (cellHash (storeMessage
        { info := CommonMessageInfo.externalIn none 5 0, init := none,
          body := bodyW } true)) :=
  normalized_hash_externalIn_spec mW (some 2) 5 3 rfl

/-- C2: for every message whose info variant is not external-in,
`getNormalizedExtMessageHash` fails with an error naming the actual
variant, and it returns a digest exactly when the variant is external-in. -/
theorem hash_requires_external_in (m : Message) :
    if m.info.type = "external-in" then
      ∃ d, getNormalizedExtMessageHash m = Except.ok d
    else
      getNormalizedExtMessageHash m =
        Except.error ("Message must be \"external-in\", got " ++ m.info.type) := by
  by_cases h : m.info.type = "external-in"
  · rw [if_pos h]
    exact getNormalizedExtMessageHash_ok_of_extIn m h
  · rw [if_neg h]
    exact getNormalizedExtMessageHash_error_of_not_extIn m h

/-- C3: two external-in messages that differ only in `src`, `importFee` and
`init` (same destination and body) get identical normalized digests. -/
theorem normalized_hash_invariant_src_fee_init (dest : Nat) (body : Cell)
    (srcA srcB : Option Nat) (feeA feeB : Int)
    (initA initB : Option StateInit) :
    getNormalizedExtMessageHash ⟨.externalIn srcA dest feeA, initA, body⟩ =
      getNormalizedExtMessageHash ⟨.externalIn srcB dest feeB, initB, body⟩ := rfl

/-- C4: when every transaction before position `k + 1` fails to match and
the one at position `k + 1` matches, the search loop examines exactly
`k + 1` candidates in list order and returns the found result at position
`k + 1`, reporting that transaction's logical time, content hash, timestamp,
inbound destination and outbound count; in particular, a list in which only
the last of `N` transactions matches yields position `N` after examining all
`N` candidates, and in general the first byte-exact match by list position
wins. -/
theorem search_first_match_position (target : Nat) (txs : List Transaction)
    (k : Nat) (txk : Transaction)
    (hbefore : ∀ j txj, j < k → txs[j]? = some txj →
      matchesTarget target txj = false)
    (hk : txs[k]? = some txk)
    (hmatch : matchesTarget target txk = true) :
    ∃ msg hc, txk.inMessage = some msg ∧
      searchLoop target 0 txs = Except.ok
        (SearchResult.found (k + 1) txk.lt txk.hash txk.now (msgDest msg)
          txk.outMessages.length, k + 1, hc) := by
  have h := searchLoop_first_match target txs k txk 0 hbefore hk hmatch
  simpa using h

/-- Witness for C4: a two-element list whose first transaction has no
inbound message and whose second carries `mW`; the search stops at position
2 after examining both candidates. -/
theorem search_first_match_position_witness :
    ∃ msg hc, txMatchW.inMessage = some msg ∧
      searchLoop targetW 0 [txSkipW, txMatchW] = Except.ok
        (SearchResult.found 2 txMatchW.lt txMatchW.hash txMatchW.now
          (msgDest msg) txMatchW.outMessages.length, 2, hc) :=
  search_first_match_position targetW [txSkipW, txMatchW] 1 txMatchW
    (by
      intro j txj hj hget
      interval_cases j
      simp at hget
      subst hget
      rfl)
    (by rfl)
    (by decide)

/-- C5: the search loop never raises an error, and the number of inbound
hashes it computes equals the number of examined transactions whose inbound
message is present and external-in, so a transaction with an absent or
non-external-in inbound message is skipped and never hashed. -/
theorem search_skips_non_external_in (target : Nat) (txs : List Transaction) :
    ∃ r ex hc, searchLoop target 0 txs = Except.ok (r, ex, hc) ∧
      hc = ((txs.take ex).filter isExtInTx).length ∧ ex ≤ txs.length := by
  obtain ⟨r, ex, hc, h1, h2, h3⟩ := searchLoop_ok_counts target txs 0
  exact ⟨r, ex, hc, h1, h2, h3⟩

/-- C6: with a decoded external-in message, a fetch that returns zero
transactions makes the verifier terminate on the not-found path, not on an
error path, and after exactly one fetch call. -/
theorem empty_fetch_not_found (m : Message)
    (h : m.info.type = "external-in") :
    verifyBocOutcome (Except.ok m) (Except.ok []) = (Outcome.notFound, 1) := by
  obtain ⟨d, hd⟩ := getNormalizedExtMessageHash_ok_of_extIn m h
  simp [verifyBocOutcome, h, hd]

/-- Witness for C6 at the concrete external-in message `mW`. -/
theorem empty_fetch_not_found_witness :
    verifyBocOutcome (Except.ok mW) (Except.ok []) = (Outcome.notFound, 1) :=
  empty_fetch_not_found mW rfl

/-- C7: across any single verification run the fetch collaborator is
invoked at most once, and it is invoked zero times whenever container
decoding fails or the root message's variant is not external-in. -/
theorem fetch_called_at_most_once (decoded : Except String Message)
    (fetched : Except String (List Transaction)) :
    (verifyBocOutcome decoded fetched).2 ≤ 1 ∧
    (∀ e, decoded = Except.error e →
      (verifyBocOutcome decoded fetched).2 = 0) ∧
    (∀ m, decoded = Except.ok m → m.info.type ≠ "external-in" →
      (verifyBocOutcome decoded fetched).2 = 0) := by
  refine ⟨?_, ?_, ?_⟩
  · unfold verifyBocOutcome
    repeat' split
    all_goals simp
  · intro e he
    subst he
    simp [verifyBocOutcome]
  · intro m hm hne
    subst hm
    simp [verifyBocOutcome, hne]

/-- Witness for C7: a run whose root message is internal performs zero
fetch calls. -/
theorem fetch_called_at_most_once_witness :
    (verifyBocOutcome (Except.ok mInternalW) (Except.ok [])).2 = 0 :=
  (fetch_called_at_most_once (Except.ok mInternalW) (Except.ok [])).2.2
    mInternalW rfl (by decide)

/-- C8 counterexample: a malformed-container run and an empty-fetch
(no-match) run take provably distinct internal outcome paths, yet
`verifyBoc` hands its caller the very same value `false` for both, so the
distinct alternatives do not reach the caller as distinguishable
outcomes. -/
theorem outcome_collapse_counterexample :
    verifyBoc (Except.error "boom") (Except.ok []) = false ∧
    verifyBoc (Except.ok mW) (Except.ok []) = false ∧
    (verifyBocOutcome (Except.error "boom") (Except.ok [])).1 =
      Outcome.error "boom" ∧
    (verifyBocOutcome (Except.ok mW) (Except.ok [])).1 = Outcome.notFound ∧
    Outcome.error "boom" ≠ Outcome.notFound :=
  ⟨rfl, rfl, rfl, rfl, by decide⟩

/-- C8 (amended): the run's terminal paths are distinct, named alternatives
(found, not-found, the error paths), but toward its caller `verifyBoc`
collapses them to a boolean that is `true` exactly on the found
alternative; a malformed container, an unsupported message type, a fetch
failure and a no-match outcome are distinguished only in the console
report, reaching the caller identically as `false`. -/
theorem verifyBoc_boolean_of_outcome (decoded : Except String Message)
    (fetched : Except String (List Transaction)) :
    verifyBoc decoded fetched =
      ((verifyBocOutcome decoded fetched).1).isFound := by
  unfold verifyBoc verifyBocOutcome
  repeat' split
  all_goals simp_all [Outcome.isFound]

/-- C9: `getNormalizedExtMessageHash` is a pure function of its message
argument: equal messages yield equal results; on an external-in message the
result factors through the explicit transformation `normalizedExtMessage`,
which keeps the input's body and produces a new value — distinct from the
input whenever the input carried an init pair — rather than mutating the
input in place. -/
theorem hash_pure_function (mA mB : Message) (hm : mA = mB) :
    getNormalizedExtMessageHash mA = getNormalizedExtMessageHash mB ∧
    (mA.info.type = "external-in" →
      getNormalizedExtMessageHash mA =
        Except.ok (cellHash (storeMessage (normalizedExtMessage mA) true)) ∧
      (normalizedExtMessage mA).body = mA.body ∧
      ∀ si, mA.init = some si → normalizedExtMessage mA ≠ mA) := by
  subst hm
  refine ⟨rfl, fun h => ⟨?_, rfl, ?_⟩⟩
  · simp [getNormalizedExtMessageHash, normalizedExtMessage, h]
  · intro si hsi heq
    have hinit : (normalizedExtMessage mA).init = mA.init :=
      congrArg Message.init heq
    rw [hsi] at hinit
    simp [normalizedExtMessage] at hinit

/-- Witness for C9 at a concrete external-in message carrying an init
pair. -/
theorem hash_pure_function_witness :
    getNormalizedExtMessageHash mInitW = getNormalizedExtMessageHash mInitW ∧
    (mInitW.info.type = "external-in" →
      getNormalizedExtMessageHash mInitW =
        Except.ok (cellHash (storeMessage (normalizedExtMessage mInitW) true)) ∧
      (normalizedExtMessage mInitW).body = mInitW.body ∧
      ∀ si, mInitW.init = some si → normalizedExtMessage mInitW ≠ mInitW) :=
  hash_pure_function mInitW mInitW rfl

/-- C10: any `--network` value other than `mainnet` or `testnet` is accepted
by `parseArgs` without validation, the subsequent `ENDPOINTS` lookup yields
`undefined`, and the verifier's client is constructed with an undefined
endpoint instead of the argument being rejected up front. -/
theorem parseArgs_network_unchecked (v : String)
    (h1 : v ≠ "mainnet") (h2 : v ≠ "testnet") :
    ∃ config, parseArgs ["te6ccgEBAQEAAgAAAA==", "--network", v] = some config ∧
      config.network = some v ∧
      endpointFor config.network = none ∧
      (clientInit config).endpoint = none := by
  refine ⟨{ boc := "te6ccgEBAQEAAgAAAA==", network := some v, apiKey := none,
            limit := some 10, verbose := false }, rfl, rfl, ?_, ?_⟩
  · simp [endpointFor, ENDPOINTS, h1, h2]
  · simp [clientInit, endpointFor, ENDPOINTS, h1, h2]

/-- Witness for C10 at the unrecognized network name `devnet`. -/
theorem parseArgs_network_unchecked_witness :
    ∃ config, parseArgs ["te6ccgEBAQEAAgAAAA==", "--network", "devnet"] =
        some config ∧
      config.network = some "devnet" ∧
      endpointFor config.network = none ∧
      (clientInit config).endpoint = none :=
  parseArgs_network_unchecked "devnet" (by decide) (by decide)

end VerifyBoc
